import Mathlib

/-!
Verification of the order subsystem of the bazaarhub backend.

The development shallowly embeds the code of
`src/backend/services/orders/service.py` and its data models
(`src/backend/services/orders/models.py`, `src/backend/services/products/models.py`,
`src/backend/shared/schemas.py`) into Lean.

Conventions of the embedding:
* Python `Decimal` values are exact rationals (`ℚ`); `Decimal.quantize(Decimal("0.01"))`
  with the default context rounding (`ROUND_HALF_EVEN`) is `quantize2` below.
* The MongoDB product collection is a `List Product`; `Product.get` is lookup by id,
  `product.save()` replaces the stored document.
* `PydanticObjectId(s)` succeeds exactly on 24-character hexadecimal strings; a failed
  parse raises, which the embedding records as the `invalidId` outcome where the code
  does not catch it.
* `HTTPException(status_code, detail)` is `ApiError.httpError`.
* Timestamps are natural numbers; the database-assigned order id and the clock are
  passed as explicit parameters.
-/

/-- Round-half-even ("banker's") rounding of a rational to an integer: the behaviour of
Python `Decimal.quantize` under the default context rounding `ROUND_HALF_EVEN`. -/
def rhe (x : ℚ) : ℤ :=
  let n := ⌊x⌋
  let r := x - (n : ℚ)
  if r < 1/2 then n
  else if 1/2 < r then n + 1
  else if n % 2 = 0 then n else n + 1

/-- Model of `Decimal.quantize(Decimal("0.01"))` with default rounding: round to 2 fractional
digits, ties to even. -/
def quantize2 (x : ℚ) : ℚ := (rhe (x * 100) : ℚ) / 100

/-- Hexadecimal digit test used by the ObjectId parser. -/
def isHexChar (c : Char) : Bool :=
  c.isDigit || ('a' ≤ c && c ≤ 'f') || ('A' ≤ c && c ≤ 'F')

/-- Model of `PydanticObjectId`: parsing `s` succeeds exactly on 24-character hex strings. -/
def isValidObjectId (s : String) : Bool :=
  s.length == 24 && s.toList.all isHexChar

/-- The `Product` document (products/models.py): `price` is validated with
`ge=0, decimal_places=2`, `stock` with `ge=0`, and `is_active` defaults to `True`. -/
structure Product where
  id : String
  name : String
  price : ℚ
  stock : ℤ
  is_active : Bool
deriving Repr, DecidableEq

/-- The `OrderStatus` enumeration (orders/models.py). -/
inductive OrderStatus
  | pending | confirmed | processing | shipped | delivered | cancelled
deriving Repr, DecidableEq

/-- The `OrderItem` snapshot embedded in an order (orders/models.py). -/
structure OrderItem where
  product_id : String
  name : String
  price : ℚ
  quantity : ℤ
  item_total : ℚ
deriving Repr, DecidableEq

/-- The `ShippingAddress` value object (orders/models.py). -/
structure ShippingAddress where
  full_name : String
  address_line1 : String
  address_line2 : Option String := none
  city : String
  state : String
  postal_code : String
  country : String := "PK"
  phone : String
deriving Repr, DecidableEq

/-- The `OrderItemRequest` schema (orders/models.py lines 136-139): note that `quantity : int`
carries no `ge=1` constraint, unlike the cart's `CartItem.quantity`. -/
structure OrderItemRequest where
  product_id : String
  quantity : ℤ
deriving Repr, DecidableEq

/-- The `CreateOrderRequest` schema (orders/models.py). -/
structure CreateOrderRequest where
  items : List OrderItemRequest
  shipping_address : ShippingAddress
deriving Repr, DecidableEq

/-- The `Order` document (orders/models.py); named `OrderDoc` because `Order` is taken by
the mathematical library. -/
structure OrderDoc where
  id : String
  user_id : String
  items : List OrderItem
  subtotal : ℚ
  shipping_cost : ℚ
  tax : ℚ
  total : ℚ
  shipping_address : ShippingAddress
  status : OrderStatus
  created_at : Nat
  updated_at : Nat
deriving Repr, DecidableEq

/-- Outcome of a service call that raises: `HTTPException(code, detail)`, or the
uncaught `bson` parse error raised by `PydanticObjectId` on a malformed id. -/
inductive ApiError
  | httpError (code : Nat) (detail : String)
  | invalidId (s : String)
deriving Repr, DecidableEq

/-- Model of `Product.get(oid)`: lookup by id in the products collection. -/
def productGet (db : List Product) (pid : String) : Option Product :=
  db.find? (fun p => p.id == pid)

/-- Model of `product.save()`: replace the stored document having the same id. -/
def saveProduct (db : List Product) (p : Product) : List Product :=
  db.map (fun q => if q.id == p.id then p else q)

/-- The body of the `for item in data.items` loop of `OrderService.create_order`
(service.py lines 59-90): fetch the product, check stock, deduct and save, accumulate
the snapshot items and the running subtotal.  Returns the (possibly mutated) product
collection together with either the error raised or the accumulated items and subtotal. -/
def processItems (db : List Product) (req : List OrderItemRequest)
    (acc : List OrderItem) (subtotal : ℚ) :
    List Product × Except ApiError (List OrderItem × ℚ) :=
  match req with
  | [] => (db, .ok (acc, subtotal))
  | item :: rest =>
    if ¬ isValidObjectId item.product_id then
      (db, .error (.invalidId item.product_id))
    else
      match productGet db item.product_id with
      | none =>
        (db, .error (.httpError 404 ("Product not found: " ++ item.product_id)))
      | some product =>
        if product.stock < item.quantity then
          (db, .error (.httpError 400 ("Insufficient stock for " ++ product.name)))
        else
          let product' := { product with stock := product.stock - item.quantity }
          let db' := saveProduct db product'
          let item_total := product.price * (item.quantity : ℚ)
          processItems db' rest
            (acc ++ [{ product_id := product.id, name := product.name,
                       price := product.price, quantity := item.quantity,
                       item_total := item_total }])
            (subtotal + item_total)

/-- Embedding of `OrderService.create_order` (service.py lines 31-110).  `oid` is the database
assigned order id and `now` the clock value used for the timestamps.  The returned
product collection reflects every `product.save()` performed before the call ended
(the code does not roll the saves back on error). -/
def create_order (db : List Product) (user_id : String) (data : CreateOrderRequest)
    (oid : String) (now : Nat) : List Product × Except ApiError OrderDoc :=
  if data.items.isEmpty then
    (db, .error (.httpError 400 "Order must contain at least one item"))
  else
    match processItems db data.items [] 0 with
    | (db', .error e) => (db', .error e)
    | (db', .ok (order_items, subtotal)) =>
      let shipping_cost : ℚ := 0
      let tax := subtotal * (5/100)
      let total := subtotal + shipping_cost + tax
      (db', .ok { id := oid, user_id := user_id, items := order_items,
                  subtotal := subtotal, shipping_cost := shipping_cost,
                  tax := quantize2 tax, total := quantize2 total,
                  shipping_address := data.shipping_address,
                  status := .pending, created_at := now, updated_at := now })

/-- The constant 404 body used by both order lookups (service.py lines 120-123
and 156-160). -/
def orderNotFound : ApiError := .httpError 404 "Order not found"

/-- Model of `Order.get(oid)` wrapped in the `try/except` of service.py lines 114-117: a
malformed id is caught and treated as an absent order. -/
def orderGet (odb : List OrderDoc) (order_id : String) : Option OrderDoc :=
  if isValidObjectId order_id then odb.find? (fun o => o.id == order_id) else none

/-- Embedding of `OrderService.get_order` (service.py lines 112-125). -/
def get_order (odb : List OrderDoc) (user_id : String) (order_id : String) :
    Except ApiError OrderDoc :=
  match orderGet odb order_id with
  | none => .error orderNotFound
  | some o => if o.user_id == user_id then .ok o else .error orderNotFound

/-- Model of `order.save()` for orders: replace the stored document having the same id. -/
def saveOrder (odb : List OrderDoc) (o : OrderDoc) : List OrderDoc :=
  odb.map (fun q => if q.id == o.id then o else q)

/-- Embedding of `OrderService.update_status` (service.py lines 145-167): no transition guard; the
requested status is written unconditionally and `updated_at` refreshed. -/
def update_status (odb : List OrderDoc) (order_id : String) (new_status : OrderStatus)
    (now : Nat) : List OrderDoc × Except ApiError OrderDoc :=
  match orderGet odb order_id with
  | none => (odb, .error orderNotFound)
  | some o =>
    let o' := { o with status := new_status, updated_at := now }
    (saveOrder odb o', .ok o')

/-- The `PaginatedResponse` schema (shared/schemas.py): `items`, `total`, `page`, `page_size`,
`pages`, `has_next`, `has_prev`. -/
structure PaginatedOrders where
  items : List OrderDoc
  total : Nat
  page : Nat
  page_size : Nat
  pages : Nat
  has_next : Bool
  has_prev : Bool
deriving Repr, DecidableEq

/-- Insert an order into a list kept sorted by `created_at` descending. -/
def insertDesc (o : OrderDoc) : List OrderDoc → List OrderDoc
  | [] => [o]
  | x :: xs => if x.created_at < o.created_at then o :: x :: xs else x :: insertDesc o xs

/-- The `sort(-Order.created_at)` of the Mongo query: newest first. -/
def sortDesc : List OrderDoc → List OrderDoc
  | [] => []
  | x :: xs => insertDesc x (sortDesc xs)

/-- Embedding of `OrderService.list_orders` (service.py lines 127-143) together with
`PaginationParams.skip` (`(page - 1) * page_size`) and `PaginatedResponse.create`
(shared/schemas.py lines 77-102): filter by owner, sort newest first, count, then
skip/limit, with `pages = (total + page_size - 1) / page_size` (ceiling division),
`has_next = page < pages` and `has_prev = page > 1`. -/
def list_orders (odb : List OrderDoc) (user_id : String) (page page_size : Nat) :
    PaginatedOrders :=
  let filtered := odb.filter (fun o => o.user_id == user_id)
  let sorted := sortDesc filtered
  let total := filtered.length
  let items := (sorted.drop ((page - 1) * page_size)).take page_size
  let pages := (total + page_size - 1) / page_size
  { items := items, total := total, page := page, page_size := page_size,
    pages := pages, has_next := decide (page < pages), has_prev := decide (page > 1) }

/-!
Interleaving model of the stock reservation inside `create_order` (service.py lines
59-77).  Per requested item the code performs two separate database operations:
`Product.get` (a read) and `product.save()` (a write of the previously read value
minus the quantity); the stock check compares the read value.  A thread is the
reservation of one quantity against one product; the scheduler interleaves the
database operations of two threads in any order.
-/

/-- Progress of one reservation thread: not yet read, read the stock value `v`, or
finished with success flag. -/
inductive ThreadPhase
  | notStarted
  | readDone (v : ℤ)
  | finished (ok : Bool)
deriving Repr, DecidableEq

/-- One database operation of a reservation thread for quantity `q`: first the
`Product.get` read, then either the insufficient-stock abort (no write) or the
`product.save()` write of `v - q`. -/
def stepThread (q : ℤ) : ThreadPhase → ℤ → ThreadPhase × ℤ
  | .notStarted, s => (.readDone s, s)
  | .readDone v, s => if v < q then (.finished false, s) else (.finished true, v - q)
  | .finished b, s => (.finished b, s)

/-- Shared state of two concurrent reservations against one product. -/
structure ConcState where
  stock : ℤ
  t1 : ThreadPhase
  t2 : ThreadPhase
deriving Repr, DecidableEq

/-- One scheduler step: run the next database operation of thread 1 (`true`) or
thread 2 (`false`). -/
def stepSched (q1 q2 : ℤ) (st : ConcState) (choose1 : Bool) : ConcState :=
  if choose1 then
    let r := stepThread q1 st.t1 st.stock
    { st with t1 := r.1, stock := r.2 }
  else
    let r := stepThread q2 st.t2 st.stock
    { st with t2 := r.1, stock := r.2 }

/-- Run a whole schedule (a list of thread choices). -/
def runSchedule (q1 q2 : ℤ) (sched : List Bool) (st : ConcState) : ConcState :=
  sched.foldl (stepSched q1 q2) st

/-- Modelled from the spec: round-half-up to 2 fractional digits ("rounded to 2
fractional digits using round-half-up", "a tax of exactly 0.005 rounds to 0.01").
The source uses `Decimal.quantize` with the context default instead; this definition
exists only to compare the source's rounding with the spec's words. -/
def round2up (x : ℚ) : ℚ := ((⌊x * 100 + 1/2⌋ : ℤ) : ℚ) / 100

/-! Concrete documents used to instantiate the theorems. -/

/-- A well-formed product ObjectId. -/
def pidA : String := "aaaaaaaaaaaaaaaaaaaaaaaa"

/-- A second well-formed ObjectId, absent from every product collection below. -/
def pidB : String := "bbbbbbbbbbbbbbbbbbbbbbbb"

/-- A well-formed order ObjectId. -/
def oidO : String := "cccccccccccccccccccccccc"

/-- A second well-formed order ObjectId, absent from every order collection below. -/
def oidX : String := "dddddddddddddddddddddddd"

/-- A shipping address. -/
def demoAddr : ShippingAddress :=
  { full_name := "n", address_line1 := "l1", city := "c", state := "s",
    postal_code := "p", phone := "ph" }

/-- One active product: price 10.00, stock 5. -/
def demoDb : List Product :=
  [{ id := pidA, name := "A", price := 10, stock := 5, is_active := true }]

/-- One INACTIVE product (soft-deleted): price 10.00, stock 5. -/
def dbInactive : List Product :=
  [{ id := pidA, name := "A", price := 10, stock := 5, is_active := false }]

/-- One active product priced 0.05 (two fractional digits), ample stock. -/
def dbNickel : List Product :=
  [{ id := pidA, name := "A", price := 1/20, stock := 100, is_active := true }]

/-- An order resting in the terminal `delivered` state. -/
def orderDelivered : OrderDoc :=
  { id := oidO, user_id := "u", items := [], subtotal := 0, shipping_cost := 0,
    tax := 0, total := 0, shipping_address := demoAddr, status := .delivered,
    created_at := 0, updated_at := 0 }

/-- A one-order collection owned by user `"u"`. -/
def odb1 : List OrderDoc := [orderDelivered]

/-- An order owned by `"u"` with creation time `t` and distinguishing id. -/
def mkOrder (id : String) (t : Nat) : OrderDoc :=
  { id := id, user_id := "u", items := [], subtotal := 0, shipping_cost := 0,
    tax := 0, total := 0, shipping_address := demoAddr, status := .pending,
    created_at := t, updated_at := t }

/-- Three orders of user `"u"` with distinct ids and creation times. -/
def odb3 : List OrderDoc :=
  [mkOrder oidO 1, mkOrder oidX 3, mkOrder "eeeeeeeeeeeeeeeeeeeeeeee" 2]

/-- The conjunction of properties `list_orders` is claimed to satisfy: only the
owner's orders, newest first, `total` the number of the owner's orders,
`pages = ceil(total / page_size)`, `has_next`/`has_prev` as claimed, and the pages
jointly a disjoint partition of exactly the owner's orders. -/
def listOrdersProps (odb : List OrderDoc) (uid : String) (page ps : Nat) : Prop :=
  (∀ o ∈ (list_orders odb uid page ps).items, o.user_id = uid)
  ∧ (list_orders odb uid page ps).items.Pairwise
      (fun a b => b.created_at ≤ a.created_at)
  ∧ (list_orders odb uid page ps).total
      = (odb.filter (fun o => o.user_id == uid)).length
  ∧ (list_orders odb uid page ps).pages
      = (list_orders odb uid page ps).total ⌈/⌉ ps
  ∧ ((list_orders odb uid page ps).has_next = true
      ↔ page < (list_orders odb uid page ps).pages)
  ∧ ((list_orders odb uid page ps).has_prev = true ↔ 1 < page)
  ∧ ((List.range (list_orders odb uid page ps).pages).map
        (fun k => (list_orders odb uid (k + 1) ps).items)).flatten.Perm
      (odb.filter (fun o => o.user_id == uid))
  ∧ (∀ j k, j ≠ k → ∀ o, o ∈ (list_orders odb uid (j + 1) ps).items →
      o ∉ (list_orders odb uid (k + 1) ps).items)

/-- Request: 3 units of the demo product. -/
def demoReq : CreateOrderRequest :=
  { items := [{ product_id := pidA, quantity := 3 }], shipping_address := demoAddr }

/-- The products collection after the demo order: stock 5 - 3 = 2. -/
def demoDbAfter : List Product :=
  [{ id := pidA, name := "A", price := 10, stock := 2, is_active := true }]

/-- The order the demo request produces: subtotal 30.00, tax 1.50, total 31.50. -/
def demoOrder : OrderDoc :=
  { id := oidO, user_id := "u",
    items := [{ product_id := pidA, name := "A", price := 10, quantity := 3,
                item_total := 30 }],
    subtotal := 30, shipping_cost := 0, tax := 3/2, total := 63/2,
    shipping_address := demoAddr, status := .pending, created_at := 0,
    updated_at := 0 }

/-- Request: 2 units of the 0.05-priced product, so the raw tax is exactly 0.005. -/
def reqNickel : CreateOrderRequest :=
  { items := [{ product_id := pidA, quantity := 2 }], shipping_address := demoAddr }

/-- The order `reqNickel` produces: subtotal 0.10, raw tax 0.005 stored as 0.00. -/
def orderNickel : OrderDoc :=
  { id := oidO, user_id := "u",
    items := [{ product_id := pidA, name := "A", price := 1/20, quantity := 2,
                item_total := 1/10 }],
    subtotal := 1/10, shipping_cost := 0, tax := 0, total := 1/10,
    shipping_address := demoAddr, status := .pending, created_at := 0,
    updated_at := 0 }

/-- Request: 1 unit of the present product, then 1 unit of the absent `pidB`. -/
def reqAB : CreateOrderRequest :=
  { items := [{ product_id := pidA, quantity := 1 },
              { product_id := pidB, quantity := 1 }],
    shipping_address := demoAddr }

/-- Request: 1 unit of the demo product. -/
def reqOne : CreateOrderRequest :=
  { items := [{ product_id := pidA, quantity := 1 }], shipping_address := demoAddr }

/-- The order `reqOne` produces against the inactive product. -/
def orderInactive : OrderDoc :=
  { id := oidO, user_id := "u",
    items := [{ product_id := pidA, name := "A", price := 10, quantity := 1,
                item_total := 10 }],
    subtotal := 10, shipping_cost := 0, tax := 1/2, total := 21/2,
    shipping_address := demoAddr, status := .pending, created_at := 0,
    updated_at := 0 }

/-- Request with a NEGATIVE quantity, accepted by the unconstrained
`OrderItemRequest.quantity`. -/
def reqNeg : CreateOrderRequest :=
  { items := [{ product_id := pidA, quantity := -2 }], shipping_address := demoAddr }

/-- The order `reqNeg` produces: quantity -2, line total -20.00, total -21.00. -/
def orderNeg : OrderDoc :=
  { id := oidO, user_id := "u",
    items := [{ product_id := pidA, name := "A", price := 10, quantity := -2,
                item_total := -20 }],
    subtotal := -20, shipping_cost := 0, tax := -1, total := -21,
    shipping_address := demoAddr, status := .pending, created_at := 0,
    updated_at := 0 }

/-! ### Properties of the rounding -/

/-- Unfolding of `rhe` into its branch form. -/
theorem rhe_eq_ite (x : ℚ) :
    rhe x = if x - (⌊x⌋ : ℚ) < 1/2 then ⌊x⌋
            else if 1/2 < x - (⌊x⌋ : ℚ) then ⌊x⌋ + 1
            else if ⌊x⌋ % 2 = 0 then ⌊x⌋ else ⌊x⌋ + 1 := rfl

/-- Adding an integer commutes with round-half-even provided the integer is even or
the fractional part is not the tie `1/2`. -/
theorem rhe_int_add (n : ℤ) (x : ℚ)
    (h : n % 2 = 0 ∨ x - (⌊x⌋ : ℚ) ≠ 1/2) :
    rhe ((n : ℚ) + x) = n + rhe x := by
  have hfl : ⌊(n : ℚ) + x⌋ = n + ⌊x⌋ := Int.floor_int_add n x
  have hr : (n : ℚ) + x - ((n + ⌊x⌋ : ℤ) : ℚ) = x - (⌊x⌋ : ℚ) := by
    push_cast; ring
  rw [rhe_eq_ite, rhe_eq_ite, hfl, hr]
  split_ifs with h1 h2 h3 h4 <;> try omega
  all_goals
    have htie : x - (⌊x⌋ : ℚ) = 1/2 := le_antisymm (not_lt.mp h2) (not_lt.mp h1)
  all_goals
    have hn : n % 2 = 0 := h.resolve_right (fun hc => hc htie)
  all_goals omega

/-- The tie-parity fact specific to a 5% rate on a whole number of cents:
rounding `N + N/20` half-even equals `N` plus the half-even rounding of `N/20`. -/
theorem rhe_add_div_twenty (N : ℤ) :
    rhe ((N : ℚ) + (N : ℚ)/20) = N + rhe ((N : ℚ)/20) := by
  apply rhe_int_add
  by_cases h : (N : ℚ)/20 - (⌊(N : ℚ)/20⌋ : ℚ) = 1/2
  · left
    have hq : (N : ℚ) = 20 * (⌊(N : ℚ)/20⌋ : ℚ) + 10 := by
      field_simp at h
      linarith
    have hz : N = 20 * ⌊(N : ℚ)/20⌋ + 10 := by exact_mod_cast hq
    omega
  · right
    exact h

/-- On a subtotal that is a whole number of cents and with free shipping, quantizing
the grand total equals the subtotal plus the quantized tax. -/
theorem quantize2_total_eq (M : ℤ) :
    quantize2 ((M : ℚ)/100 + 0 + ((M : ℚ)/100) * (5/100))
      = (M : ℚ)/100 + 0 + quantize2 (((M : ℚ)/100) * (5/100)) := by
  have h1 : ((M : ℚ)/100 + 0 + (M : ℚ)/100 * (5/100)) * 100
      = (M : ℚ) + (M : ℚ)/20 := by ring
  have h2 : ((M : ℚ)/100 * (5/100)) * 100 = (M : ℚ)/20 := by ring
  unfold quantize2
  rw [h1, h2, rhe_add_div_twenty]
  push_cast
  ring

/-- The rounding `rhe` is within `1/2` of its argument, and at the tie it returns an even
integer. -/
theorem rhe_close (y : ℚ) :
    |(rhe y : ℚ) - y| ≤ 1/2 ∧ (|(rhe y : ℚ) - y| = 1/2 → rhe y % 2 = 0) := by
  have h0 : (⌊y⌋ : ℚ) ≤ y := Int.floor_le y
  have h1 : y < (⌊y⌋ : ℚ) + 1 := Int.lt_floor_add_one y
  rw [rhe_eq_ite]
  split_ifs with ha hb hc
  · constructor
    · rw [abs_le]
      constructor <;> linarith
    · intro habs
      rw [abs_of_nonpos (by linarith)] at habs
      linarith
  · constructor
    · rw [abs_le]
      push_cast
      constructor <;> linarith
    · intro habs
      rw [abs_of_nonneg (by push_cast; linarith)] at habs
      push_cast at habs
      linarith
  · have htie : y - (⌊y⌋ : ℚ) = 1/2 := le_antisymm (not_lt.mp hb) (not_lt.mp ha)
    constructor
    · rw [abs_le]
      constructor <;> linarith
    · intro _
      exact hc
  · have htie : y - (⌊y⌋ : ℚ) = 1/2 := le_antisymm (not_lt.mp hb) (not_lt.mp ha)
    constructor
    · rw [abs_le]
      push_cast
      constructor <;> linarith
    · intro _
      omega

/-! ### Invariants of the item-processing loop -/

/-- Saving a stock update never changes the set of prices: every stored product keeps a
price that some product of the original collection had. -/
theorem saveProduct_price_mem (db : List Product) (p : Product) (q : Product)
    (hq : q ∈ saveProduct db p) : q = p ∨ q ∈ db := by
  unfold saveProduct at hq
  obtain ⟨r, hr, hrq⟩ := List.mem_map.mp hq
  by_cases h : (r.id == p.id) = true
  · left
    rw [if_pos h] at hrq
    exact hrq.symm
  · right
    rw [if_neg h] at hrq
    exact hrq ▸ hr

/-- Through the loop, every snapshot line total is the snapshot price times the
quantity, the running subtotal is the sum of the line totals, and (prices being whole
cents) the subtotal is a whole number of cents. -/
theorem processItems_ok_props (req : List OrderItemRequest) :
    ∀ (db : List Product) (acc : List OrderItem) (sub : ℚ)
      (db' : List Product) (items : List OrderItem) (subtotal : ℚ),
    (∀ p ∈ db, ∃ n : ℤ, p.price = (n : ℚ)/100) →
    (∀ it ∈ acc, it.item_total = it.price * (it.quantity : ℚ)) →
    (∃ m : ℤ, sub = (m : ℚ)/100) →
    sub = (acc.map OrderItem.item_total).sum →
    processItems db req acc sub = (db', .ok (items, subtotal)) →
    (∀ it ∈ items, it.item_total = it.price * (it.quantity : ℚ))
    ∧ (∃ M : ℤ, subtotal = (M : ℚ)/100)
    ∧ subtotal = (items.map OrderItem.item_total).sum := by
  induction req with
  | nil =>
    intro db acc sub db' items subtotal _ hacc hsub hsum h
    unfold processItems at h
    obtain ⟨h1, h2⟩ := Prod.mk.injEq .. ▸ h
    obtain ⟨hi, hs⟩ := Prod.mk.injEq .. ▸ (Except.ok.injEq .. ▸ h2)
    subst hi hs
    exact ⟨hacc, hsub, hsum⟩
  | cons item rest ih =>
    intro db acc sub db' items subtotal hdb hacc hsub hsum h
    unfold processItems at h
    split at h
    · exact absurd h (by simp)
    · split at h
      · exact absurd h (by simp)
      · rename_i product hfind
        split at h
        · exact absurd h (by simp)
        · rename_i hstock
          have hpmem : product ∈ db := by
            have := List.mem_of_find?_eq_some hfind
            exact this
          obtain ⟨n, hn⟩ := hdb product hpmem
          refine ih _ _ _ _ _ _ ?_ ?_ ?_ ?_ h
          · intro p hp
            rcases saveProduct_price_mem _ _ _ hp with hp' | hp'
            · subst hp'
              exact ⟨n, hn⟩
            · exact hdb p hp'
          · intro it hit
            rcases List.mem_append.mp hit with hit' | hit'
            · exact hacc it hit'
            · rw [List.mem_singleton.mp hit']
          · obtain ⟨m, hm⟩ := hsub
            refine ⟨m + n * item.quantity, ?_⟩
            rw [hm, hn]
            push_cast
            ring
          · rw [List.map_append, List.sum_append, hsum]
            simp

/-! ### Validity of the concrete identifiers -/

theorem pidA_valid : isValidObjectId pidA = true := by decide

theorem pidB_valid : isValidObjectId pidB = true := by decide

theorem oidO_valid : isValidObjectId oidO = true := by decide

theorem oidX_valid : isValidObjectId oidX = true := by decide

/-! ### C4: totals of a successful order -/

/-- C4: for every order that `create_order` successfully returns (over a products
collection whose prices are whole numbers of cents, as the `decimal_places=2`
validator guarantees), the total equals subtotal + shippingCost + tax to the cent,
the subtotal equals the sum of the items' line totals, and each item's line total
equals its snapshotted unit price times its quantity. -/
theorem create_order_totals (db : List Product) (uid : String)
    (data : CreateOrderRequest) (oid : String) (now : Nat)
    (db' : List Product) (o : OrderDoc)
    (hprice : ∀ p ∈ db, ∃ n : ℤ, p.price = (n : ℚ)/100)
    (h : create_order db uid data oid now = (db', .ok o)) :
    o.total = o.subtotal + o.shipping_cost + o.tax
    ∧ o.subtotal = (o.items.map OrderItem.item_total).sum
    ∧ ∀ it ∈ o.items, it.item_total = it.price * (it.quantity : ℚ) := by
  unfold create_order at h
  split at h
  · exact absurd h (by simp)
  · rcases hproc : processItems db data.items [] 0 with ⟨db2, r⟩
    rw [hproc] at h
    rcases r with e | ⟨order_items, subtotal⟩
    · exact absurd h (by simp)
    · obtain ⟨hitems, ⟨M, hM⟩, hsum⟩ :=
        processItems_ok_props data.items db [] 0 db2 order_items subtotal hprice
          (by intro it hit; exact absurd hit (List.not_mem_nil it))
          ⟨0, by norm_num⟩ (by simp) hproc
      injection h with hdb ho
      injection ho with ho
      subst ho
      refine ⟨?_, hsum, hitems⟩
      show quantize2 (subtotal + 0 + subtotal * (5/100))
        = subtotal + 0 + quantize2 (subtotal * (5/100))
      rw [hM]
      exact quantize2_total_eq M

/-- Witness for C4 at the concrete demo input: one product at 10.00 with stock 5,
ordering 3 units. -/
theorem create_order_totals_witness :
    demoOrder.total = demoOrder.subtotal + demoOrder.shipping_cost + demoOrder.tax
    ∧ demoOrder.subtotal = (demoOrder.items.map OrderItem.item_total).sum
    ∧ ∀ it ∈ demoOrder.items, it.item_total = it.price * (it.quantity : ℚ) :=
  create_order_totals demoDb "u" demoReq oidO 0 demoDbAfter demoOrder
    (by
      intro p hp
      rw [List.mem_singleton.mp hp]
      exact ⟨1000, by norm_num⟩)
    (by
      simp [create_order, processItems, productGet, saveProduct, demoDb, demoReq,
            quantize2, rhe, demoDbAfter, demoOrder]
      rw [pidA_valid]
      norm_num [Int.fract])

/-! ### C5: the rounding mode of the pricing arithmetic -/

/-- C5 (counterexample): the code does not round half-up.  Ordering 2 units at 0.05
gives subtotal 0.10 and raw tax exactly 0.005; the stored tax is 0.00, while the
claimed round-half-up of 0.005 is 0.01. -/
theorem tax_half_up_cex :
    (create_order dbNickel "u" reqNickel oidO 0).2 = .ok orderNickel
    ∧ orderNickel.tax = 0
    ∧ round2up (orderNickel.subtotal * (5/100)) = 1/100
    ∧ orderNickel.tax ≠ round2up (orderNickel.subtotal * (5/100)) := by
  refine ⟨?_, rfl, ?_, ?_⟩
  · simp [create_order, processItems, productGet, saveProduct, dbNickel, reqNickel,
          quantize2, rhe, orderNickel]
    rw [pidA_valid]
    norm_num [Int.fract]
  · norm_num [round2up, orderNickel]
  · norm_num [round2up, orderNickel]

/-- C5 (amended): the pricing computation quantizes with `ROUND_HALF_EVEN`, not
half-up: the stored tax is `quantize2(subtotal * 5%)`, the stored total is
`quantize2(subtotal + shippingCost + raw tax)` (the unrounded tax), and `quantize2`
rounds to the nearest cent with ties going to an even number of cents.  The
arithmetic is exact rational (fixed-point) arithmetic, hence deterministic. -/
theorem create_order_rounding (db : List Product) (uid : String)
    (data : CreateOrderRequest) (oid : String) (now : Nat)
    (db' : List Product) (o : OrderDoc)
    (h : create_order db uid data oid now = (db', .ok o)) :
    o.tax = quantize2 (o.subtotal * (5/100))
    ∧ o.total = quantize2 (o.subtotal + o.shipping_cost + o.subtotal * (5/100))
    ∧ (∀ x : ℚ, |quantize2 x - x| ≤ 1/200
        ∧ (|quantize2 x - x| = 1/200 → rhe (x * 100) % 2 = 0)) := by
  unfold create_order at h
  split at h
  · exact absurd h (by simp)
  · rcases hproc : processItems db data.items [] 0 with ⟨db2, r⟩
    rw [hproc] at h
    rcases r with e | ⟨order_items, subtotal⟩
    · exact absurd h (by simp)
    · injection h with hdb ho
      injection ho with ho
      subst ho
      refine ⟨rfl, rfl, ?_⟩
      intro x
      have hc := rhe_close (x * 100)
      have hq : quantize2 x - x = ((rhe (x * 100) : ℚ) - x * 100)/100 := by
        unfold quantize2
        ring
      constructor
      · have h1 := hc.1
        rw [hq, abs_div]
        rw [show |(100 : ℚ)| = 100 by norm_num]
        linarith
      · intro he
        apply hc.2
        rw [hq, abs_div, show |(100 : ℚ)| = 100 by norm_num] at he
        linarith

/-- Witness for C5's amended statement at the demo input. -/
theorem create_order_rounding_witness :
    demoOrder.tax = quantize2 (demoOrder.subtotal * (5/100))
    ∧ demoOrder.total
        = quantize2 (demoOrder.subtotal + demoOrder.shipping_cost
            + demoOrder.subtotal * (5/100))
    ∧ (∀ x : ℚ, |quantize2 x - x| ≤ 1/200
        ∧ (|quantize2 x - x| = 1/200 → rhe (x * 100) % 2 = 0)) :=
  create_order_rounding demoDb "u" demoReq oidO 0 demoDbAfter demoOrder
    (by
      simp [create_order, processItems, productGet, saveProduct, demoDb, demoReq,
            quantize2, rhe, demoDbAfter, demoOrder]
      rw [pidA_valid]
      norm_num [Int.fract])

/-! ### C1: the reservation race -/

/-- C1: the reservation is NOT linearizable.  The code performs `Product.get` (read)
and `product.save()` (write) as two separate database operations with the stock check
in between on the read value.  Under the interleaving read1, read2, write1, write2,
two concurrent reservations of 3 units each against stock 5 BOTH succeed (their
combined quantity 6 exceeding the stock), ending with stock 2 (a lost update). -/
theorem reserve_race_both_succeed :
    runSchedule 3 3 [true, false, true, false]
        { stock := 5, t1 := .notStarted, t2 := .notStarted }
      = { stock := 2, t1 := .finished true, t2 := .finished true }
    ∧ 3 + 3 > 5 := by
  constructor
  · decide
  · decide

/-! ### C2: no compensation on partial failure -/

/-- C2: `create_order` is NOT atomic with respect to inventory.  Requesting
[(A, 1), (B, 1)] where A is present with stock 5 and B is absent returns the
`ProductNotFound` error for B, yet leaves A's stock durably decremented to 4:
the reservation of the earlier item is not released. -/
theorem create_order_no_compensation :
    ((create_order demoDb "u" reqAB oidO 0).2
        = .error (.httpError 404 ("Product not found: " ++ pidB)))
    ∧ (create_order demoDb "u" reqAB oidO 0).1
        = [{ id := pidA, name := "A", price := 10, stock := 4, is_active := true }]
    ∧ demoDb
        = [{ id := pidA, name := "A", price := 10, stock := 5, is_active := true }] := by
  refine ⟨?_, ?_, rfl⟩ <;>
  · simp [create_order, processItems, productGet, saveProduct, demoDb, reqAB]
    rw [pidA_valid, pidB_valid]
    simp [pidA, pidB]

/-! ### C3: inactive products are orderable -/

/-- C3: `create_order` does not treat an inactive product as nonexistent: against a
collection whose only product is soft-deleted (`is_active = false`), the order
succeeds and stock is deducted, instead of failing with `ProductNotFound`. -/
theorem create_order_ignores_inactive :
    (create_order dbInactive "u" reqOne oidO 0).2 = .ok orderInactive
    ∧ (∀ p ∈ dbInactive, p.is_active = false) := by
  constructor
  · simp [create_order, processItems, productGet, saveProduct, dbInactive, reqOne,
          quantize2, rhe, orderInactive]
    rw [pidA_valid]
    norm_num [Int.fract]
  · decide

/-! ### C7: quantities below 1 are accepted -/

/-- C7: `OrderItemRequest.quantity` is unconstrained, and a negative quantity passes
the `product.stock < item.quantity` check: ordering quantity -2 against stock 5
creates an order whose item has quantity -2 (line total -20.00) and INCREASES the
product's stock from 5 to 7. -/
theorem create_order_negative_quantity :
    create_order demoDb "u" reqNeg oidO 0
      = ([{ id := pidA, name := "A", price := 10, stock := 7, is_active := true }],
         .ok orderNeg)
    ∧ (∀ it ∈ orderNeg.items, it.quantity < 1)
    ∧ ((5 : ℤ) < 7) := by
  refine ⟨?_, by decide, by decide⟩
  simp [create_order, processItems, productGet, saveProduct, demoDb, reqNeg,
        quantize2, rhe, orderNeg]
  rw [pidA_valid]
  norm_num [Int.fract]

/-! ### C6: no terminal states -/

/-- C6 (counterexample): `update_status` has no transition guard.  An order resting
in the terminal state `delivered` is moved back to `pending` with no
`InvalidTransition` error, its status changed and `updated_at` refreshed. -/
theorem update_status_terminal_cex :
    (update_status odb1 oidO .pending 7).2
      = .ok { orderDelivered with status := .pending, updated_at := 7 }
    ∧ orderDelivered.status = .delivered := by
  constructor
  · unfold update_status orderGet
    rw [oidO_valid]
    simp [odb1, orderDelivered, saveOrder]
  · rfl

/-- In a collection with no duplicate ids, `find?` by a member's id returns exactly
that member. -/
theorem find_by_id_of_mem (odb : List OrderDoc) (o : OrderDoc) (ho : o ∈ odb)
    (hnodup : (odb.map OrderDoc.id).Nodup) :
    odb.find? (fun q => q.id == o.id) = some o := by
  induction odb with
  | nil => exact absurd ho (List.not_mem_nil o)
  | cons x xs ih =>
    rw [List.find?_cons]
    rcases List.mem_cons.mp ho with h | h
    · subst h
      simp
    · have hx : (x.id == o.id) = false := by
        rw [beq_eq_false_iff_ne]
        intro heq
        rw [List.map_cons, List.nodup_cons] at hnodup
        exact hnodup.1 (heq ▸ List.mem_map_of_mem OrderDoc.id h)
      rw [hx]
      exact ih h (by rw [List.map_cons, List.nodup_cons] at hnodup; exact hnodup.2)

/-- C6 (amended): `delivered` and `cancelled` are not terminal in the code.  For
every stored order, whatever its current status (`delivered` and `cancelled`
included), `update_status` accepts any requested status and returns the order with
that status and a refreshed `updated_at`; no `InvalidTransition` outcome exists. -/
theorem update_status_no_guard (odb : List OrderDoc) (o : OrderDoc)
    (st : OrderStatus) (now : Nat)
    (ho : o ∈ odb) (hid : isValidObjectId o.id = true)
    (hnodup : (odb.map OrderDoc.id).Nodup) :
    (update_status odb o.id st now).2
      = .ok { o with status := st, updated_at := now } := by
  unfold update_status orderGet
  rw [hid, if_pos rfl, find_by_id_of_mem odb o ho hnodup]

/-- Witness for C6's amended statement: the delivered demo order is moved to
`confirmed` without complaint. -/
theorem update_status_no_guard_witness :
    (update_status odb1 oidO .confirmed 9).2
      = .ok { orderDelivered with status := .confirmed, updated_at := 9 } :=
  update_status_no_guard odb1 orderDelivered .confirmed 9
    (by simp [odb1]) oidO_valid (by simp [odb1])

/-! ### C8: owner-scoped order lookup -/

/-- C8: over a collection of well-formed, duplicate-free order ids, `get_order`
returns an order exactly when it is stored under the requested id AND owned by the
caller; in every other case — absent id or foreign owner — it returns the one
identical `Order not found` error. -/
theorem get_order_spec (odb : List OrderDoc) (uid oid : String)
    (hids : ∀ o ∈ odb, isValidObjectId o.id = true)
    (hnodup : (odb.map OrderDoc.id).Nodup) :
    (∀ o : OrderDoc, get_order odb uid oid = .ok o
        ↔ o ∈ odb ∧ o.id = oid ∧ o.user_id = uid)
    ∧ ((¬ ∃ o ∈ odb, o.id = oid ∧ o.user_id = uid) →
        get_order odb uid oid = .error (.httpError 404 "Order not found")) := by
  unfold get_order orderGet
  by_cases hv : isValidObjectId oid = true
  · rw [hv, if_pos rfl]
    rcases hfind : odb.find? (fun q => q.id == oid) with _ | o'
    · rw [hfind]
      have hnone := List.find?_eq_none.mp hfind
      constructor
      · intro o
        constructor
        · intro h
          exact absurd h (by simp)
        · rintro ⟨hmem, hid, -⟩
          exact absurd (by simp [hid]) (hnone o hmem)
      · intro _
        rfl
    · rw [hfind]
      have hmem' : o' ∈ odb := List.mem_of_find?_eq_some hfind
      have hid' : o'.id = oid := by
        have := List.find?_some hfind
        simpa using this
      by_cases hu : o'.user_id = uid
      · constructor
        · intro o
          constructor
          · intro h
            simp only [beq_iff_eq, hu, if_pos rfl, if_true, Except.ok.injEq] at h
            subst h
            exact ⟨hmem', hid', hu⟩
          · rintro ⟨hmem, hid, -⟩
            have ho : o = o' :=
              List.inj_on_of_nodup_map hnodup hmem hmem' (by rw [hid, hid'])
            subst ho
            simp [hu]
        · intro habs
          exact absurd ⟨o', hmem', hid', hu⟩ habs
      · constructor
        · intro o
          constructor
          · intro h
            simp [beq_iff_eq, hu] at h
          · rintro ⟨hmem, hid, huid⟩
            have ho : o = o' :=
              List.inj_on_of_nodup_map hnodup hmem hmem' (by rw [hid, hid'])
            exact absurd (ho ▸ huid) hu
        · intro _
          simp [beq_iff_eq, hu, orderNotFound]
  · rw [if_neg hv]
    constructor
    · intro o
      constructor
      · intro h
        exact absurd h (by simp)
      · rintro ⟨hmem, hid, -⟩
        exact absurd (hid ▸ hids o hmem) hv
    · intro _
      rfl

/-- Witness for C8 over the one-order demo collection. -/
theorem get_order_spec_witness :
    (∀ o : OrderDoc, get_order odb1 "u" oidO = .ok o
        ↔ o ∈ odb1 ∧ o.id = oidO ∧ o.user_id = "u")
    ∧ ((¬ ∃ o ∈ odb1, o.id = oidO ∧ o.user_id = "u") →
        get_order odb1 "u" oidO = .error (.httpError 404 "Order not found")) :=
  get_order_spec odb1 "u" oidO
    (by
      intro o ho
      rw [List.mem_singleton.mp ho]
      exact oidO_valid)
    (by simp [odb1])

/-! ### C10: malformed ids map to the absent-order error -/

/-- C10: for every ill-formed order-id string the parse failure inside `get_order`
and `update_status` is caught and mapped to the same `Order not found` error (and
unchanged state) that a well-formed id matching no stored order produces. -/
theorem invalid_id_not_found (odb : List OrderDoc) (uid s s' : String)
    (st : OrderStatus) (now : Nat)
    (hs : isValidObjectId s = false)
    (hs' : isValidObjectId s' = true)
    (habs : ∀ o ∈ odb, o.id ≠ s') :
    get_order odb uid s = .error orderNotFound
    ∧ update_status odb s st now = (odb, .error orderNotFound)
    ∧ get_order odb uid s = get_order odb uid s'
    ∧ update_status odb s st now = update_status odb s' st now := by
  have hg : orderGet odb s = none := by
    unfold orderGet
    rw [hs]
    simp
  have hg' : orderGet odb s' = none := by
    unfold orderGet
    rw [hs', if_pos rfl]
    exact List.find?_eq_none.mpr (fun o ho => by simp [habs o ho])
  refine ⟨?_, ?_, ?_, ?_⟩
  · unfold get_order
    rw [hg]
  · unfold update_status
    rw [hg]
  · unfold get_order
    rw [hg, hg']
  · unfold update_status
    rw [hg, hg']

/-- Witness for C10 at a concrete malformed id. -/
theorem invalid_id_not_found_witness :
    isValidObjectId "not-an-objectid" = false
    ∧ get_order odb1 "u" "not-an-objectid" = .error orderNotFound :=
  ⟨by decide,
   (invalid_id_not_found odb1 "u" "not-an-objectid" oidX .pending 0
      (by decide) oidX_valid (by decide)).1⟩

/-! ### C9: pagination of the order list -/

/-- Inserting with `insertDesc` permutes a cons. -/
theorem insertDesc_perm (o : OrderDoc) (l : List OrderDoc) :
    (insertDesc o l).Perm (o :: l) := by
  induction l with
  | nil => exact List.Perm.refl _
  | cons x xs ih =>
    unfold insertDesc
    split
    · exact List.Perm.refl _
    · exact (List.Perm.cons x ih).trans (List.Perm.swap o x xs)

/-- Sorting with `sortDesc` is a permutation. -/
theorem sortDesc_perm (l : List OrderDoc) : (sortDesc l).Perm l := by
  induction l with
  | nil => exact List.Perm.refl _
  | cons x xs ih =>
    unfold sortDesc
    exact (insertDesc_perm x (sortDesc xs)).trans (List.Perm.cons x ih)

/-- Insertion with `insertDesc` preserves descending order on `created_at`. -/
theorem insertDesc_sorted (o : OrderDoc) (l : List OrderDoc)
    (h : l.Pairwise (fun a b => b.created_at ≤ a.created_at)) :
    (insertDesc o l).Pairwise (fun a b => b.created_at ≤ a.created_at) := by
  induction l with
  | nil => simp [insertDesc]
  | cons x xs ih =>
    rw [List.pairwise_cons] at h
    obtain ⟨hx, hxs⟩ := h
    unfold insertDesc
    split
    · rename_i hlt
      rw [List.pairwise_cons]
      refine ⟨?_, List.pairwise_cons.mpr ⟨hx, hxs⟩⟩
      intro b hb
      rcases List.mem_cons.mp hb with hb | hb
      · subst hb
        exact le_of_lt hlt
      · exact le_trans (hx b hb) (le_of_lt hlt)
    · rename_i hnlt
      rw [List.pairwise_cons]
      refine ⟨?_, ih hxs⟩
      intro b hb
      rcases List.mem_cons.mp ((insertDesc_perm o xs).mem_iff.mp hb) with hb' | hb'
      · subst hb'
        exact not_lt.mp hnlt
      · exact hx b hb'

/-- The result of `sortDesc` is sorted by `created_at` descending. -/
theorem sortDesc_sorted (l : List OrderDoc) :
    (sortDesc l).Pairwise (fun a b => b.created_at ≤ a.created_at) := by
  induction l with
  | nil => simp [sortDesc]
  | cons x xs ih =>
    unfold sortDesc
    exact insertDesc_sorted x (sortDesc xs) ih

/-- Reassembling the first `n` pages of size `ps` gives the first `n * ps`
elements. -/
theorem flatten_chunks (l : List OrderDoc) (ps : Nat) (n : Nat) :
    ((List.range n).map (fun k => (l.drop (k * ps)).take ps)).flatten
      = l.take (n * ps) := by
  induction n with
  | zero => simp
  | succ m ih =>
    rw [List.range_succ, List.map_append, List.flatten_append, ih]
    simp only [List.map_cons, List.map_nil, List.flatten_cons, List.flatten_nil,
      List.append_nil]
    rw [Nat.succ_mul, List.take_add]

/-- Two distinct pages over a duplicate-free list share no element. -/
theorem chunks_disjoint (l : List OrderDoc) (ps : Nat) (hnd : l.Nodup)
    (j k : Nat) (hjk : j < k) (o : OrderDoc)
    (hj : o ∈ (l.drop (j * ps)).take ps)
    (hk : o ∈ (l.drop (k * ps)).take ps) : False := by
  have h1 : o ∈ l.take (j * ps + ps) := by
    rw [List.take_add]
    exact List.mem_append_right _ hj
  have h2 : o ∈ l.drop (k * ps) := List.mem_of_mem_take hk
  have hle : j * ps + ps ≤ k * ps := by
    have hsucc : (j + 1) * ps ≤ k * ps :=
      Nat.mul_le_mul_right ps (Nat.succ_le_of_lt hjk)
    exact le_trans (le_of_eq (by ring)) hsucc
  exact List.disjoint_take_drop hnd hle h1 h2

/-- C9: for every owner, `page ≥ 1` and `1 ≤ pageSize ≤ 100`, over a collection
with duplicate-free ids, `list_orders` returns only that owner's orders sorted by
`created_at` descending, reports `total` as the owner's order count and
`pages = ceil(total / pageSize)`, `has_next ↔ page < pages`,
`has_prev ↔ page > 1`, and the pages `1..pages` are pairwise disjoint with union
exactly the owner's orders. -/
theorem list_orders_spec (odb : List OrderDoc) (uid : String) (page ps : Nat)
    (hpage : 1 ≤ page) (hps : 1 ≤ ps) (hps100 : ps ≤ 100)
    (hnodup : (odb.map OrderDoc.id).Nodup) :
    listOrdersProps odb uid page ps := by
  have hps0 : 0 < ps := hps
  unfold listOrdersProps
  set filtered := odb.filter (fun o => o.user_id == uid) with hfilt
  have hperm : (sortDesc filtered).Perm filtered := sortDesc_perm filtered
  have hfnodup : filtered.Nodup := by
    have hodb : odb.Nodup := hnodup.of_map
    exact hodb.sublist (List.filter_sublist odb)
  have hLnodup : (sortDesc filtered).Nodup := hperm.nodup_iff.mpr hfnodup
  have hlen : (sortDesc filtered).length = filtered.length := hperm.length_eq
  have hitems : ∀ q, (list_orders odb uid q ps).items
      = ((sortDesc filtered).drop ((q - 1) * ps)).take ps := fun q => rfl
  have htot : (list_orders odb uid page ps).total = filtered.length := rfl
  have hpages : (list_orders odb uid page ps).pages
      = (filtered.length + ps - 1) / ps := rfl
  have htotle : filtered.length ≤ ((filtered.length + ps - 1) / ps) * ps := by
    have h1 := le_smul_ceilDiv (b := filtered.length) hps0
    rw [smul_eq_mul, Nat.ceilDiv_eq_add_pred_div, Nat.mul_comm] at h1
    exact h1
  refine ⟨?_, ?_, ?_, ?_, ?_, ?_, ?_, ?_⟩
  · intro o ho
    rw [hitems] at ho
    have h1 : o ∈ sortDesc filtered :=
      List.mem_of_mem_drop (List.mem_of_mem_take ho)
    have h2 : o ∈ filtered := hperm.mem_iff.mp h1
    have := (List.mem_filter.mp h2).2
    simpa using this
  · rw [hitems]
    exact List.Pairwise.sublist
      ((List.take_sublist _ _).trans (List.drop_sublist _ _))
      (sortDesc_sorted filtered)
  · exact htot
  · rw [hpages, htot, Nat.ceilDiv_eq_add_pred_div]
  · rw [show (list_orders odb uid page ps).has_next
        = decide (page < (filtered.length + ps - 1) / ps) from rfl, hpages]
    exact decide_eq_true_iff
  · rw [show (list_orders odb uid page ps).has_prev = decide (1 < page) from rfl]
    exact decide_eq_true_iff
  · rw [hpages]
    have hmapeq : (List.range ((filtered.length + ps - 1) / ps)).map
          (fun k => (list_orders odb uid (k + 1) ps).items)
        = (List.range ((filtered.length + ps - 1) / ps)).map
          (fun k => ((sortDesc filtered).drop (k * ps)).take ps) := by
      apply List.map_congr_left
      intro k _
      rw [hitems]
      simp
    rw [hmapeq, flatten_chunks, List.take_of_length_le (by rw [hlen]; exact htotle)]
    exact hperm
  · intro j k hjk o hoj hok
    rw [hitems] at hoj hok
    simp only [Nat.add_sub_cancel] at hoj hok
    rcases Nat.lt_or_ge j k with h | h
    · exact chunks_disjoint (sortDesc filtered) ps hLnodup j k h o hoj hok
    · have h' : k < j := lt_of_le_of_ne h (Ne.symm hjk)
      exact chunks_disjoint (sortDesc filtered) ps hLnodup k j h' o hok hoj

/-- Witness for C9: 3 orders, page size 2, 2 pages. -/
theorem list_orders_spec_witness :
    (1 : ℕ) ≤ 1 ∧ (1 : ℕ) ≤ 2 ∧ (2 : ℕ) ≤ 100 ∧ (odb3.map OrderDoc.id).Nodup
    ∧ listOrdersProps odb3 "u" 1 2 :=
  ⟨by decide, by decide, by decide, by decide,
   list_orders_spec odb3 "u" 1 2 (by decide) (by decide) (by decide) (by decide)⟩
